import Mathlib

/-!
Shallow embedding of the `origami` library (lambda-fairy/origami): the
Semigroup / Monoid / Reducer trait hierarchy of `src/traits.rs`, the named
wrapper types of `src/wrappers.rs`, and the iterator folds of `src/iter.rs`.

Rust iterators over finite sequences are modelled as `List`; `Iterator::fold`
is `List.foldl`. Borrowed slices (`&str`, `&[T]`) are modelled by the value
they denote (`String`, `List T`); `to_owned` is then the identity and
`push_str` / `extend` are `++`.
-/

set_option autoImplicit false

namespace Origami

/-- `trait Semigroup { fn combine(self, other: Self) -> Self; }`
(src/traits.rs lines 20-22). -/
class Semigroup (α : Type) where
  combine : α → α → α

export Semigroup (combine)

/-- `impl Semigroup for ()` (src/traits.rs lines 24-28). -/
instance : Semigroup Unit where
  combine _ _ := ()

/-- Model of the Rust one-element tuple `(A,)`. -/
structure Tuple1 (α : Type) where
  fst : α
  deriving DecidableEq

/-- `impl<A: Semigroup> Semigroup for (A,)` (src/traits.rs lines 30-34). -/
instance {α : Type} [Semigroup α] : Semigroup (Tuple1 α) where
  combine s o := ⟨combine s.fst o.fst⟩

/-- `impl<A: Semigroup, B: Semigroup> Semigroup for (A, B)`
(src/traits.rs lines 36-40). -/
instance {α β : Type} [Semigroup α] [Semigroup β] : Semigroup (α × β) where
  combine s o := (combine s.1 o.1, combine s.2 o.2)

/-- Model of the Rust three-element tuple `(A, B, C)`. -/
structure Tuple3 (α β γ : Type) where
  fst : α
  snd : β
  thd : γ
  deriving DecidableEq

/-- `impl<A, B, C: Semigroup> Semigroup for (A, B, C)`
(src/traits.rs lines 42-46). -/
instance {α β γ : Type} [Semigroup α] [Semigroup β] [Semigroup γ] :
    Semigroup (Tuple3 α β γ) where
  combine s o := ⟨combine s.fst o.fst, combine s.snd o.snd, combine s.thd o.thd⟩

/-- `impl<T: Semigroup> Semigroup for Option<T>`: combine the underlying
`Some` values, ignoring `None`s (src/traits.rs lines 49-59). -/
instance {T : Type} [Semigroup T] : Semigroup (Option T) where
  combine s o :=
    match s with
    | none => o
    | some x =>
      match o with
      | none => some x
      | some y => some (combine x y)

/-- `impl Semigroup for String`: `self.push_str(&other)` appends `other`
onto `self` (src/traits.rs lines 61-66). -/
instance : Semigroup String where
  combine s o := s ++ o

/-- `impl<T> Semigroup for Vec<T>`: `self.extend(other)` appends the
elements of `other` (src/traits.rs lines 68-73). -/
instance {T : Type} : Semigroup (List T) where
  combine s o := s ++ o

/-- `trait Monoid: Semigroup { fn unit() -> Self; }`
(src/traits.rs lines 86-89). -/
class Monoid (α : Type) [Semigroup α] where
  unit : α

/-- `impl Monoid for ()` (src/traits.rs lines 91-95). -/
instance : Monoid Unit where
  unit := ()

/-- `impl<A: Monoid> Monoid for (A,)` (src/traits.rs lines 97-101). -/
instance {α : Type} [Semigroup α] [Monoid α] : Monoid (Tuple1 α) where
  unit := ⟨Monoid.unit⟩

/-- `impl<A: Monoid, B: Monoid> Monoid for (A, B)`
(src/traits.rs lines 103-107). -/
instance {α β : Type} [Semigroup α] [Semigroup β] [Monoid α] [Monoid β] :
    Monoid (α × β) where
  unit := (Monoid.unit, Monoid.unit)

/-- `impl<A, B, C: Monoid> Monoid for (A, B, C)`
(src/traits.rs lines 109-113). -/
instance {α β γ : Type} [Semigroup α] [Semigroup β] [Semigroup γ]
    [Monoid α] [Monoid β] [Monoid γ] : Monoid (Tuple3 α β γ) where
  unit := ⟨Monoid.unit, Monoid.unit, Monoid.unit⟩

/-- `impl<T: Semigroup> Monoid for Option<T>`: the unit is `None`
(src/traits.rs lines 116-120). -/
instance {T : Type} [Semigroup T] : Monoid (Option T) where
  unit := none

/-- `impl Monoid for String`: unit is the empty string
(src/traits.rs lines 122-126). -/
instance : Monoid String where
  unit := ""

/-- `impl<T> Monoid for Vec<T>`: unit is the empty vector
(src/traits.rs lines 128-132). -/
instance {T : Type} : Monoid (List T) where
  unit := []

/-- `trait Reducer<T>: Semigroup` with default bodies for `combine_left`
and `combine_right` (src/traits.rs lines 160-168). -/
class Reducer (T : Type) (R : Type) [Semigroup R] where
  unit : T → R
  combine_left : R → T → R := fun s v => combine (unit v) s
  combine_right : R → T → R := fun s v => combine s (unit v)

/-- `impl<T, R: Reducer<T>> Reducer<T> for Option<R>`
(src/traits.rs lines 170-186). -/
instance {T R : Type} [Semigroup R] [Reducer T R] : Reducer T (Option R) where
  unit v := some (Reducer.unit v)
  combine_left s v :=
    match s with
    | none => some (Reducer.unit v)
    | some r => some (Reducer.combine_left r v)
  combine_right s v :=
    match s with
    | none => some (Reducer.unit v)
    | some r => some (Reducer.combine_right r v)

/-- `impl<'a> Reducer<&'a str> for String`: `unit` copies the slice
(`to_owned`, the identity in this model), the overridden `combine_right`
is an in-place `push_str` (src/traits.rs lines 188-196). `combine_left`
keeps the trait default. -/
instance : Reducer String String where
  unit v := v
  combine_right s v := s ++ v

/-- `impl<'a, T: Clone> Reducer<&'a [T]> for Vec<T>`: `unit` clones the
slice, the overridden `combine_right` is an in-place `extend`
(src/traits.rs lines 198-206). `combine_left` keeps the trait default. -/
instance {T : Type} : Reducer (List T) (List T) where
  unit v := v
  combine_right s v := s ++ v

/-- `fn fold_monoid(self) -> Self::Item`: `self.fold(Monoid::unit(),
Semigroup::combine)` (src/iter.rs lines 20-24). -/
def fold_monoid {α : Type} [Semigroup α] [Monoid α] (xs : List α) : α :=
  xs.foldl combine Monoid.unit

/-- `fn fold_nonempty(mut self) -> Option<Self::Item>`
(src/iter.rs lines 39-46). -/
def fold_nonempty {α : Type} [Semigroup α] : List α → Option α
  | [] => none
  | first :: rest => some (rest.foldl combine first)

/-- `fn fold_map<F, A>(self, f: F) -> A`: `self.map(f).fold_monoid()`
(src/iter.rs lines 59-63). -/
def fold_map {α A : Type} [Semigroup A] [Monoid A] (f : α → A)
    (xs : List α) : A :=
  fold_monoid (xs.map f)

/-- `fn fold_map_nonempty<F, A>(self, f: F) -> Option<A>`:
`self.map(f).fold_nonempty()` (src/iter.rs lines 68-72). -/
def fold_map_nonempty {α A : Type} [Semigroup A] (f : α → A)
    (xs : List α) : Option A :=
  fold_nonempty (xs.map f)

/-- `fn fold_reduce<R>(mut self) -> R` where `R: Reducer<Item> + Monoid`
(src/iter.rs lines 84-91). -/
def fold_reduce {T : Type} (R : Type) [Semigroup R] [Reducer T R] [Monoid R] :
    List T → R
  | [] => Monoid.unit
  | first :: rest => rest.foldl Reducer.combine_right (Reducer.unit first)

/-- `fn fold_reduce_nonempty<R>(mut self) -> Option<R>` where
`R: Reducer<Item>` (src/iter.rs lines 96-103). -/
def fold_reduce_nonempty {T : Type} (R : Type) [Semigroup R] [Reducer T R] :
    List T → Option R
  | [] => none
  | first :: rest =>
    some (rest.foldl Reducer.combine_right (Reducer.unit first))

/-- `pub struct Product<T>(pub T)` (src/wrappers.rs line 10). -/
structure Product (α : Type) where
  val : α
  deriving DecidableEq

/-- `impl<T: Mul> Semigroup for Product<T>`: multiply the inner values
(src/wrappers.rs lines 12-16). -/
instance {α : Type} [Mul α] : Semigroup (Product α) where
  combine s o := ⟨s.val * o.val⟩

/-- `impl<T: One> Monoid for Product<T>` (src/wrappers.rs lines 18-20). -/
instance {α : Type} [Mul α] [One α] : Monoid (Product α) where
  unit := ⟨1⟩

/-- `pub struct Sum<T>(pub T)` (src/wrappers.rs line 23). -/
structure Sum (α : Type) where
  val : α
  deriving DecidableEq

/-- `impl<T: Add> Semigroup for Sum<T>`: add the inner values
(src/wrappers.rs lines 25-29). -/
instance {α : Type} [Add α] : Semigroup (Sum α) where
  combine s o := ⟨s.val + o.val⟩

/-- `impl<T: Zero> Monoid for Sum<T>` (src/wrappers.rs lines 31-33). -/
instance {α : Type} [Add α] [Zero α] : Monoid (Sum α) where
  unit := ⟨0⟩

/-- `pub struct All(pub bool)` (src/wrappers.rs line 36). -/
structure All where
  val : Bool
  deriving DecidableEq

/-- `impl Semigroup for All`: conjunction (src/wrappers.rs lines 38-42). -/
instance : Semigroup All where
  combine s o := ⟨s.val && o.val⟩

/-- `impl Monoid for All`: unit is `true` (src/wrappers.rs lines 44-46). -/
instance : Monoid All where
  unit := ⟨true⟩

/-- `pub struct Any(pub bool)` (src/wrappers.rs line 49). -/
structure Any where
  val : Bool
  deriving DecidableEq

/-- `impl Semigroup for Any`: disjunction (src/wrappers.rs lines 51-55). -/
instance : Semigroup Any where
  combine s o := ⟨s.val || o.val⟩

/-- `impl Monoid for Any`: unit is `false` (src/wrappers.rs lines 57-59). -/
instance : Monoid Any where
  unit := ⟨false⟩

/-- `pub struct Min<T>(pub T)` (src/wrappers.rs line 62). -/
structure Min (α : Type) where
  val : α
  deriving DecidableEq

/-- `impl<T: Ord> Semigroup for Min<T>`: `cmp::min` (src/wrappers.rs
lines 64-68). Rust `Ord` is a total order, modelled by `LinearOrder`. -/
instance {α : Type} [LinearOrder α] : Semigroup (Min α) where
  combine s o := ⟨min s.val o.val⟩

/-- `impl<T: Bounded + Ord> Monoid for Min<T>`: unit is
`Bounded::max_value()`, modelled by `⊤` (src/wrappers.rs lines 70-74). -/
instance {α : Type} [LinearOrder α] [OrderTop α] : Monoid (Min α) where
  unit := ⟨⊤⟩

/-- `pub struct Max<T>(pub T)` (src/wrappers.rs line 77). -/
structure Max (α : Type) where
  val : α
  deriving DecidableEq

/-- `impl<T: Ord> Semigroup for Max<T>`: `cmp::max` (src/wrappers.rs
lines 79-83). -/
instance {α : Type} [LinearOrder α] : Semigroup (Max α) where
  combine s o := ⟨max s.val o.val⟩

/-- `impl<T: Bounded + Ord> Monoid for Max<T>`: unit is
`Bounded::min_value()`, modelled by `⊥` (src/wrappers.rs lines 85-89). -/
instance {α : Type} [LinearOrder α] [OrderBot α] : Monoid (Max α) where
  unit := ⟨⊥⟩

/-- `pub struct First<T>(pub T)` (src/wrappers.rs line 92). -/
structure First (α : Type) where
  val : α
  deriving DecidableEq

/-- `impl<T: Ord> Semigroup for First<T>`: keeps `self`, ignoring the
other argument (src/wrappers.rs lines 94-98). No Monoid instance. -/
instance {α : Type} [LinearOrder α] : Semigroup (First α) where
  combine s _ := s

/-- `pub struct Last<T>(pub T)` (src/wrappers.rs line 101). -/
structure Last (α : Type) where
  val : α
  deriving DecidableEq

/-- `impl<T: Ord> Semigroup for Last<T>`: keeps `other`, ignoring `self`
(src/wrappers.rs lines 103-107). No Monoid instance. -/
instance {α : Type} [LinearOrder α] : Semigroup (Last α) where
  combine _ o := o

/-- Modelled from the spec: the spec describes a `Wrapper` capability
exposing `from_inner` and `into_inner` as a lossless round-trip pair, but
no such trait appears under the source files; only the single-field
wrapper structs themselves are present. `from_inner` wraps a raw value,
`into_inner` extracts the single inner field. -/
class Wrapper (W : Type) (T : outParam Type) where
  from_inner : T → W
  into_inner : W → T

instance {α : Type} : Wrapper (Product α) α where
  from_inner := Product.mk
  into_inner := Product.val

instance {α : Type} : Wrapper (Sum α) α where
  from_inner := Sum.mk
  into_inner := Sum.val

instance : Wrapper All Bool where
  from_inner := All.mk
  into_inner := All.val

instance : Wrapper Any Bool where
  from_inner := Any.mk
  into_inner := Any.val

instance {α : Type} : Wrapper (Min α) α where
  from_inner := Min.mk
  into_inner := Min.val

instance {α : Type} : Wrapper (Max α) α where
  from_inner := Max.mk
  into_inner := Max.val

instance {α : Type} : Wrapper (First α) α where
  from_inner := First.mk
  into_inner := First.val

instance {α : Type} : Wrapper (Last α) α where
  from_inner := Last.mk
  into_inner := Last.val

/-! ## Helper lemmas (shared) -/

/-- Folding `combine_right` of the `Option R` reducer from a `some`
accumulator stays inside the inner reducer: every step delegates. -/
theorem foldl_combine_right_some {T R : Type} [Semigroup R] [Reducer T R] :
    ∀ (xs : List T) (r : R),
      xs.foldl (Reducer.combine_right : Option R → T → Option R) (some r) =
        some (xs.foldl Reducer.combine_right r)
  | [], _ => rfl
  | x :: xs, r => foldl_combine_right_some xs (Reducer.combine_right r x)

/-- When `combine_right` agrees with the generic
`combine ∘ Reducer.unit`, folding it coincides with mapping `unit` and
folding `combine`. -/
theorem foldl_combine_right_eq_foldl_combine {T R : Type} [Semigroup R]
    [Reducer T R]
    (hcr : ∀ (s : R) (v : T),
      Reducer.combine_right s v = combine s (Reducer.unit v)) :
    ∀ (xs : List T) (acc : R),
      xs.foldl Reducer.combine_right acc =
        (xs.map Reducer.unit).foldl combine acc
  | [], _ => rfl
  | x :: xs, acc => by
    rw [List.foldl_cons, List.map_cons, List.foldl_cons, hcr acc x,
      foldl_combine_right_eq_foldl_combine hcr xs]

/-! ## Claim theorems -/

/-- C1: `fold_reduce::<R>` returns `Monoid::unit()` on an empty sequence;
on a non-empty sequence it seeds the accumulator with
`Reducer::unit(first)` and folds every subsequent element, left to right,
with `combine_right`; in particular `fold_reduce::<String>` over
`["Applejack", "Fluttershy", "Rarity"]` returns
`"ApplejackFluttershyRarity"`. -/
theorem fold_reduce_correct :
    (∀ (T R : Type) [Semigroup R] [Reducer T R] [Monoid R],
      fold_reduce R ([] : List T) = Monoid.unit) ∧
    (∀ (T R : Type) [Semigroup R] [Reducer T R] [Monoid R]
      (first : T) (rest : List T),
      fold_reduce R (first :: rest) =
        rest.foldl Reducer.combine_right (Reducer.unit first)) ∧
    fold_reduce String ["Applejack", "Fluttershy", "Rarity"] =
      "ApplejackFluttershyRarity" :=
  ⟨fun _ _ _ _ _ => rfl, fun _ _ _ _ _ _ _ => rfl, by decide⟩

/-- C2: `fold_monoid` drains the sequence starting the accumulator at
`unit()`, combining each element left to right; on an empty sequence it
returns `unit()`; `fold_monoid` over `[Sum(1), Sum(2), Sum(3)]` returns
`Sum(6)`. -/
theorem fold_monoid_correct :
    (∀ (M : Type) [Semigroup M] [Monoid M] (xs : List M),
      fold_monoid xs = xs.foldl combine Monoid.unit) ∧
    (∀ (M : Type) [Semigroup M] [Monoid M],
      fold_monoid ([] : List M) = Monoid.unit) ∧
    fold_monoid [Sum.mk (1 : Int), Sum.mk 2, Sum.mk 3] = Sum.mk 6 :=
  ⟨fun _ _ _ _ => rfl, fun _ _ _ => rfl, by decide⟩

/-- C3: `fold_nonempty` returns `None` exactly when the sequence is
empty; otherwise it returns `Some` of the fold of the tail, left to
right, seeded with the first element; `fold_nonempty` over
`[Product(1), Product(2), Product(3)]` returns `Some(Product(6))`. -/
theorem fold_nonempty_correct :
    (∀ (S : Type) [Semigroup S] (xs : List S),
      fold_nonempty xs = none ↔ xs = []) ∧
    (∀ (S : Type) [Semigroup S] (first : S) (rest : List S),
      fold_nonempty (first :: rest) = some (rest.foldl combine first)) ∧
    fold_nonempty [Product.mk (1 : Int), Product.mk 2, Product.mk 3] =
      some (Product.mk 6) := by
  refine ⟨fun S _ xs => ?_, fun _ _ _ _ => rfl, by decide⟩
  cases xs with
  | nil => simp [fold_nonempty]
  | cons first rest => simp [fold_nonempty]

/-- C7: the named wrappers combine exactly as the table specifies (Sum
adds, Product multiplies, All conjoins, Any disjoins, Min takes the
minimum, Max the maximum, First keeps the left argument, Last keeps the
right); folding `[Min(3), Min(1), Min(2)]` yields `Min(1)`, folding an
empty sequence of `Min` yields `Min(T::max_value())`, folding
`[First(1), First(2), First(3)]` yields `First(1)`, and folding
`[Last(1), Last(2), Last(3)]` yields `Last(3)`. -/
theorem wrapper_combine_table :
    (∀ (α : Type) [Add α] (a b : α), combine (Sum.mk a) (Sum.mk b) = Sum.mk (a + b)) ∧
    (∀ (α : Type) [Mul α] (a b : α), combine (Product.mk a) (Product.mk b) = Product.mk (a * b)) ∧
    (∀ a b : Bool, combine (All.mk a) (All.mk b) = All.mk (a && b)) ∧
    (∀ a b : Bool, combine (Any.mk a) (Any.mk b) = Any.mk (a || b)) ∧
    (∀ (α : Type) [LinearOrder α] (a b : α), combine (Min.mk a) (Min.mk b) = Min.mk (min a b)) ∧
    (∀ (α : Type) [LinearOrder α] (a b : α), combine (Max.mk a) (Max.mk b) = Max.mk (max a b)) ∧
    (∀ (α : Type) [LinearOrder α] (a b : α), combine (First.mk a) (First.mk b) = First.mk a) ∧
    (∀ (α : Type) [LinearOrder α] (a b : α), combine (Last.mk a) (Last.mk b) = Last.mk b) ∧
    fold_monoid [Min.mk (3 : Fin 10), Min.mk 1, Min.mk 2] = Min.mk 1 ∧
    (∀ (α : Type) [LinearOrder α] [OrderTop α],
      fold_monoid ([] : List (Min α)) = Min.mk ⊤) ∧
    fold_nonempty [First.mk (1 : Int), First.mk 2, First.mk 3] =
      some (First.mk 1) ∧
    fold_nonempty [Last.mk (1 : Int), Last.mk 2, Last.mk 3] =
      some (Last.mk 3) :=
  ⟨fun _ _ _ _ => rfl, fun _ _ _ _ => rfl, fun _ _ => rfl, fun _ _ => rfl,
    fun _ _ _ _ => rfl, fun _ _ _ _ => rfl, fun _ _ _ _ => rfl,
    fun _ _ _ _ => rfl, by decide, fun _ _ _ => rfl, by decide, by decide⟩

/-- C8: for every wrapper, `from_inner` and `into_inner` form a total,
pure, lossless round-trip pair: `into_inner (from_inner x) = x` and
`from_inner (into_inner w) = w`. -/
theorem wrapper_round_trip :
    (∀ (α : Type) (x : α), Wrapper.into_inner (Wrapper.from_inner x : Sum α) = x) ∧
    (∀ (α : Type) (w : Sum α), Wrapper.from_inner (Wrapper.into_inner w) = w) ∧
    (∀ (α : Type) (x : α), Wrapper.into_inner (Wrapper.from_inner x : Product α) = x) ∧
    (∀ (α : Type) (w : Product α), Wrapper.from_inner (Wrapper.into_inner w) = w) ∧
    (∀ x : Bool, Wrapper.into_inner (Wrapper.from_inner x : All) = x) ∧
    (∀ w : All, Wrapper.from_inner (Wrapper.into_inner w) = w) ∧
    (∀ x : Bool, Wrapper.into_inner (Wrapper.from_inner x : Any) = x) ∧
    (∀ w : Any, Wrapper.from_inner (Wrapper.into_inner w) = w) ∧
    (∀ (α : Type) (x : α), Wrapper.into_inner (Wrapper.from_inner x : Min α) = x) ∧
    (∀ (α : Type) (w : Min α), Wrapper.from_inner (Wrapper.into_inner w) = w) ∧
    (∀ (α : Type) (x : α), Wrapper.into_inner (Wrapper.from_inner x : Max α) = x) ∧
    (∀ (α : Type) (w : Max α), Wrapper.from_inner (Wrapper.into_inner w) = w) ∧
    (∀ (α : Type) (x : α), Wrapper.into_inner (Wrapper.from_inner x : First α) = x) ∧
    (∀ (α : Type) (w : First α), Wrapper.from_inner (Wrapper.into_inner w) = w) ∧
    (∀ (α : Type) (x : α), Wrapper.into_inner (Wrapper.from_inner x : Last α) = x) ∧
    (∀ (α : Type) (w : Last α), Wrapper.from_inner (Wrapper.into_inner w) = w) :=
  ⟨fun _ _ => rfl, fun _ _ => rfl, fun _ _ => rfl, fun _ _ => rfl,
    fun _ => rfl, fun _ => rfl, fun _ => rfl, fun _ => rfl,
    fun _ _ => rfl, fun _ _ => rfl, fun _ _ => rfl, fun _ _ => rfl,
    fun _ _ => rfl, fun _ _ => rfl, fun _ _ => rfl, fun _ _ => rfl⟩

/-- C4: for every provided Reducer instance (`String` over `&str`,
`Vec<T>` over `&[T]`, and `Option<R>` over `T` — the latter under the
hypothesis that the inner reducer itself satisfies the law), the
overridden combinators agree with the defaults:
`combine_right s v = combine s (unit v)` and
`combine_left s v = combine (unit v) s`. -/
theorem reducer_equivalence :
    (∀ (s v : String),
      Reducer.combine_right s v = combine s (Reducer.unit v : String) ∧
      Reducer.combine_left s v = combine (Reducer.unit v : String) s) ∧
    (∀ (T : Type) (s v : List T),
      Reducer.combine_right s v = combine s (Reducer.unit v : List T) ∧
      Reducer.combine_left s v = combine (Reducer.unit v : List T) s) ∧
    (∀ (T R : Type) [Semigroup R] [Reducer T R],
      (∀ (r : R) (v : T),
        Reducer.combine_right r v = combine r (Reducer.unit v)) →
      (∀ (r : R) (v : T),
        Reducer.combine_left r v = combine (Reducer.unit v) r) →
      ∀ (s : Option R) (v : T),
        Reducer.combine_right s v = combine s (Reducer.unit v : Option R) ∧
        Reducer.combine_left s v = combine (Reducer.unit v : Option R) s) := by
  refine ⟨fun s v => ⟨rfl, rfl⟩, fun T s v => ⟨rfl, rfl⟩,
    fun T R _ _ hr hl s v => ?_⟩
  cases s with
  | none => exact ⟨rfl, rfl⟩
  | some r => exact ⟨congrArg some (hr r v), congrArg some (hl r v)⟩

/-- Witness for C4 at the `Option String` reducer, accumulator
`some "ab"` and element `"c"`; the inner `String` reducer's laws hold by
`rfl`. -/
theorem reducer_equivalence_witness :
    Reducer.combine_right (some "ab") "c" =
      combine (some "ab") (Reducer.unit "c" : Option String) ∧
    Reducer.combine_left (some "ab") "c" =
      combine (Reducer.unit "c" : Option String) (some "ab") :=
  reducer_equivalence.2.2 String String (fun _ _ => rfl) (fun _ _ => rfl)
    (some "ab") "c"

/-- C5: `combine` is associative for every provided Semigroup instance:
the unit type, tuples of arity 1 to 3, `Option`, `String`, `Vec`
(lifted instances under associativity of the inner `combine`, or of the
underlying `+` / `*` for `Sum` / `Product`), and the eight named
wrappers. -/
theorem combine_assoc :
    (∀ a b c : Unit, combine (combine a b) c = combine a (combine b c)) ∧
    (∀ (α : Type) [Semigroup α],
      (∀ a b c : α, combine (combine a b) c = combine a (combine b c)) →
      ∀ a b c : Tuple1 α, combine (combine a b) c = combine a (combine b c)) ∧
    (∀ (α β : Type) [Semigroup α] [Semigroup β],
      (∀ a b c : α, combine (combine a b) c = combine a (combine b c)) →
      (∀ a b c : β, combine (combine a b) c = combine a (combine b c)) →
      ∀ a b c : α × β, combine (combine a b) c = combine a (combine b c)) ∧
    (∀ (α β γ : Type) [Semigroup α] [Semigroup β] [Semigroup γ],
      (∀ a b c : α, combine (combine a b) c = combine a (combine b c)) →
      (∀ a b c : β, combine (combine a b) c = combine a (combine b c)) →
      (∀ a b c : γ, combine (combine a b) c = combine a (combine b c)) →
      ∀ a b c : Tuple3 α β γ,
        combine (combine a b) c = combine a (combine b c)) ∧
    (∀ (T : Type) [Semigroup T],
      (∀ a b c : T, combine (combine a b) c = combine a (combine b c)) →
      ∀ a b c : Option T, combine (combine a b) c = combine a (combine b c)) ∧
    (∀ a b c : String, combine (combine a b) c = combine a (combine b c)) ∧
    (∀ (T : Type) (a b c : List T),
      combine (combine a b) c = combine a (combine b c)) ∧
    (∀ (α : Type) [Add α],
      (∀ a b c : α, a + b + c = a + (b + c)) →
      ∀ a b c : Sum α, combine (combine a b) c = combine a (combine b c)) ∧
    (∀ (α : Type) [Mul α],
      (∀ a b c : α, a * b * c = a * (b * c)) →
      ∀ a b c : Product α, combine (combine a b) c = combine a (combine b c)) ∧
    (∀ a b c : All, combine (combine a b) c = combine a (combine b c)) ∧
    (∀ a b c : Any, combine (combine a b) c = combine a (combine b c)) ∧
    (∀ (α : Type) [LinearOrder α] (a b c : Min α),
      combine (combine a b) c = combine a (combine b c)) ∧
    (∀ (α : Type) [LinearOrder α] (a b c : Max α),
      combine (combine a b) c = combine a (combine b c)) ∧
    (∀ (α : Type) [LinearOrder α] (a b c : First α),
      combine (combine a b) c = combine a (combine b c)) ∧
    (∀ (α : Type) [LinearOrder α] (a b c : Last α),
      combine (combine a b) c = combine a (combine b c)) := by
  refine ⟨fun a b c => rfl,
    fun α _ h a b c => congrArg Tuple1.mk (h a.fst b.fst c.fst),
    fun α β _ _ ha hb a b c => ?_,
    fun α β γ _ _ _ ha hb hc a b c => ?_,
    fun T _ h a b c => ?_,
    fun a b c => String.append_assoc a b c,
    fun T a b c => List.append_assoc a b c,
    fun α _ h a b c => congrArg Sum.mk (h a.val b.val c.val),
    fun α _ h a b c => congrArg Product.mk (h a.val b.val c.val),
    fun a b c => congrArg All.mk (Bool.and_assoc a.val b.val c.val),
    fun a b c => congrArg Any.mk (Bool.or_assoc a.val b.val c.val),
    fun α _ a b c => congrArg Min.mk (min_assoc a.val b.val c.val),
    fun α _ a b c => congrArg Max.mk (max_assoc a.val b.val c.val),
    fun α _ a b c => rfl,
    fun α _ a b c => rfl⟩
  · show ((combine (combine a.1 b.1) c.1, combine (combine a.2 b.2) c.2) :
      α × β) = (combine a.1 (combine b.1 c.1), combine a.2 (combine b.2 c.2))
    rw [ha a.1 b.1 c.1, hb a.2 b.2 c.2]
  · show (⟨combine (combine a.fst b.fst) c.fst,
        combine (combine a.snd b.snd) c.snd,
        combine (combine a.thd b.thd) c.thd⟩ : Tuple3 α β γ) =
      ⟨combine a.fst (combine b.fst c.fst), combine a.snd (combine b.snd c.snd),
        combine a.thd (combine b.thd c.thd)⟩
    rw [ha a.fst b.fst c.fst, hb a.snd b.snd c.snd, hc a.thd b.thd c.thd]
  · cases a with
    | none => rfl
    | some x =>
      cases b with
      | none => rfl
      | some y =>
        cases c with
        | none => rfl
        | some z => exact congrArg some (h x y z)

/-- Witness for C5 at the `Option (List Nat)` and `Sum Int` instances
with concrete arguments; the inner-associativity hypotheses are
discharged by `List.append_assoc` and `Int.add_assoc`. -/
theorem combine_assoc_witness :
    combine (combine (some [1]) (some [2])) (some ([3] : List Nat)) =
      combine (some [1]) (combine (some [2]) (some [3])) ∧
    combine (combine (Sum.mk (1 : Int)) (Sum.mk 2)) (Sum.mk 3) =
      combine (Sum.mk 1) (combine (Sum.mk 2) (Sum.mk 3)) :=
  ⟨combine_assoc.2.2.2.2.1 (List Nat) (fun a b c => List.append_assoc a b c)
      (some [1]) (some [2]) (some [3]),
    combine_assoc.2.2.2.2.2.2.2.1 Int (fun a b c => Int.add_assoc a b c)
      (Sum.mk 1) (Sum.mk 2) (Sum.mk 3)⟩

/-- C6: the Monoid identity law `combine unit x = x` and
`combine x unit = x` holds for every provided Monoid instance: the unit
type, tuples (unit is the tuple of per-component units), `Option` (unit
`None`), `String` (unit `""`), `Vec` (unit `[]`), `All` (unit true),
`Any` (unit false), `Sum` (unit zero), `Product` (unit one), `Min` over a
bounded order (unit the maximum value) and `Max` (unit the minimum
value); lifted instances hold under the corresponding hypotheses on the
inner type. -/
theorem monoid_identity :
    (∀ x : Unit, combine Monoid.unit x = x ∧ combine x Monoid.unit = x) ∧
    (∀ (α : Type) [Semigroup α] [Monoid α],
      (∀ x : α, combine Monoid.unit x = x ∧ combine x Monoid.unit = x) →
      ∀ x : Tuple1 α, combine Monoid.unit x = x ∧ combine x Monoid.unit = x) ∧
    (∀ (α β : Type) [Semigroup α] [Semigroup β] [Monoid α] [Monoid β],
      (∀ x : α, combine Monoid.unit x = x ∧ combine x Monoid.unit = x) →
      (∀ x : β, combine Monoid.unit x = x ∧ combine x Monoid.unit = x) →
      ∀ x : α × β, combine Monoid.unit x = x ∧ combine x Monoid.unit = x) ∧
    (∀ (α β γ : Type) [Semigroup α] [Semigroup β] [Semigroup γ]
      [Monoid α] [Monoid β] [Monoid γ],
      (∀ x : α, combine Monoid.unit x = x ∧ combine x Monoid.unit = x) →
      (∀ x : β, combine Monoid.unit x = x ∧ combine x Monoid.unit = x) →
      (∀ x : γ, combine Monoid.unit x = x ∧ combine x Monoid.unit = x) →
      ∀ x : Tuple3 α β γ,
        combine Monoid.unit x = x ∧ combine x Monoid.unit = x) ∧
    (∀ (T : Type) [Semigroup T] (x : Option T),
      combine Monoid.unit x = x ∧ combine x Monoid.unit = x) ∧
    (∀ x : String, combine Monoid.unit x = x ∧ combine x Monoid.unit = x) ∧
    (∀ (T : Type) (x : List T),
      combine Monoid.unit x = x ∧ combine x Monoid.unit = x) ∧
    (∀ x : All, combine Monoid.unit x = x ∧ combine x Monoid.unit = x) ∧
    (∀ x : Any, combine Monoid.unit x = x ∧ combine x Monoid.unit = x) ∧
    (∀ (α : Type) [Add α] [Zero α],
      (∀ x : α, 0 + x = x) → (∀ x : α, x + 0 = x) →
      ∀ x : Sum α, combine Monoid.unit x = x ∧ combine x Monoid.unit = x) ∧
    (∀ (α : Type) [Mul α] [One α],
      (∀ x : α, 1 * x = x) → (∀ x : α, x * 1 = x) →
      ∀ x : Product α,
        combine Monoid.unit x = x ∧ combine x Monoid.unit = x) ∧
    (∀ (α : Type) [LinearOrder α] [OrderTop α] (x : Min α),
      combine Monoid.unit x = x ∧ combine x Monoid.unit = x) ∧
    (∀ (α : Type) [LinearOrder α] [OrderBot α] (x : Max α),
      combine Monoid.unit x = x ∧ combine x Monoid.unit = x) := by
  refine ⟨fun x => ⟨rfl, rfl⟩,
    fun α _ _ h x => ⟨congrArg Tuple1.mk (h x.fst).1,
      congrArg Tuple1.mk (h x.fst).2⟩,
    fun α β _ _ _ _ ha hb x => ?_,
    fun α β γ _ _ _ _ _ _ ha hb hc x => ?_,
    fun T _ x => ⟨rfl, ?_⟩,
    fun x => ⟨?_, ?_⟩,
    fun T x => ⟨rfl, List.append_nil x⟩,
    fun x => ⟨rfl, congrArg All.mk (Bool.and_true x.val)⟩,
    fun x => ⟨congrArg Any.mk (Bool.false_or x.val),
      congrArg Any.mk (Bool.or_false x.val)⟩,
    fun α _ _ h0 h1 x => ⟨congrArg Sum.mk (h0 x.val),
      congrArg Sum.mk (h1 x.val)⟩,
    fun α _ _ h0 h1 x => ⟨congrArg Product.mk (h0 x.val),
      congrArg Product.mk (h1 x.val)⟩,
    fun α _ _ x => ⟨congrArg Min.mk (min_eq_right le_top),
      congrArg Min.mk (min_eq_left le_top)⟩,
    fun α _ _ x => ⟨congrArg Max.mk (max_eq_right bot_le),
      congrArg Max.mk (max_eq_left bot_le)⟩⟩
  · constructor
    · show ((combine Monoid.unit x.1, combine Monoid.unit x.2) : α × β) = x
      rw [(ha x.1).1, (hb x.2).1]
    · show ((combine x.1 Monoid.unit, combine x.2 Monoid.unit) : α × β) = x
      rw [(ha x.1).2, (hb x.2).2]
  · constructor
    · show (⟨combine Monoid.unit x.fst, combine Monoid.unit x.snd,
          combine Monoid.unit x.thd⟩ : Tuple3 α β γ) = x
      rw [(ha x.fst).1, (hb x.snd).1, (hc x.thd).1]
    · show (⟨combine x.fst Monoid.unit, combine x.snd Monoid.unit,
          combine x.thd Monoid.unit⟩ : Tuple3 α β γ) = x
      rw [(ha x.fst).2, (hb x.snd).2, (hc x.thd).2]
  · cases x <;> rfl
  · cases x with
    | mk data => rfl
  · cases x with
    | mk data => exact congrArg String.mk (List.append_nil data)

/-- Witness for C6 at `Sum Int` with `x = Sum.mk 5`; the hypotheses
`0 + x = x` and `x + 0 = x` on `Int` are discharged by `Int.zero_add`
and `Int.add_zero`. -/
theorem monoid_identity_witness :
    combine Monoid.unit (Sum.mk (5 : Int)) = Sum.mk 5 ∧
    combine (Sum.mk (5 : Int)) Monoid.unit = Sum.mk 5 :=
  monoid_identity.2.2.2.2.2.2.2.2.2.1 Int (fun x => Int.zero_add x)
    (fun x => Int.add_zero x) (Sum.mk 5)

/-- C9: the Reducer instance lifted through `Option` satisfies
`unit v = some (unit v)`; its `combine_left` and `combine_right` inject
on a `none` accumulator and delegate to the inner reducer on `some`;
every reduce step therefore yields a `some`; and `fold_reduce` targeting
`Option R` returns `none` exactly when the sequence is empty. -/
theorem option_reducer_invariants :
    (∀ (T R : Type) [Semigroup R] [Reducer T R] (v : T),
      (Reducer.unit v : Option R) = some (Reducer.unit v)) ∧
    (∀ (T R : Type) [Semigroup R] [Reducer T R] (v : T),
      Reducer.combine_left (none : Option R) v = some (Reducer.unit v) ∧
      Reducer.combine_right (none : Option R) v = some (Reducer.unit v)) ∧
    (∀ (T R : Type) [Semigroup R] [Reducer T R] (r : R) (v : T),
      Reducer.combine_left (some r) v = some (Reducer.combine_left r v) ∧
      Reducer.combine_right (some r) v = some (Reducer.combine_right r v)) ∧
    (∀ (T R : Type) [Semigroup R] [Reducer T R] (s : Option R) (v : T),
      ∃ r : R, Reducer.combine_right s v = some r) ∧
    (∀ (T R : Type) [Semigroup R] [Reducer T R] (xs : List T),
      fold_reduce (Option R) xs = none ↔ xs = []) := by
  refine ⟨fun T R _ _ v => rfl,
    fun T R _ _ v => ⟨rfl, rfl⟩,
    fun T R _ _ r v => ⟨rfl, rfl⟩,
    fun T R _ _ s v => ?_,
    fun T R _ _ xs => ?_⟩
  · cases s with
    | none => exact ⟨Reducer.unit v, rfl⟩
    | some r => exact ⟨Reducer.combine_right r v, rfl⟩
  · cases xs with
    | nil => exact iff_of_true rfl rfl
    | cons first rest =>
      show rest.foldl Reducer.combine_right (some (Reducer.unit first)) =
        none ↔ first :: rest = []
      rw [foldl_combine_right_some]
      simp

/-- C10: whenever the Monoid identity law (on the left) and the
reducer-equivalence law for `combine_right` hold, the specialized
`fold_reduce` returns the same value as the naive
`fold_map Reducer.unit` on every sequence. -/
theorem fold_reduce_eq_fold_map {T R : Type} [Semigroup R] [Reducer T R]
    [Monoid R]
    (hid : ∀ r : R, combine Monoid.unit r = r)
    (hcr : ∀ (s : R) (v : T),
      Reducer.combine_right s v = combine s (Reducer.unit v)) :
    ∀ xs : List T, fold_reduce R xs = fold_map Reducer.unit xs
  | [] => rfl
  | first :: rest => by
    show rest.foldl Reducer.combine_right (Reducer.unit first) =
      fold_monoid (Reducer.unit first :: rest.map Reducer.unit)
    show rest.foldl Reducer.combine_right (Reducer.unit first) =
      (Reducer.unit first :: rest.map Reducer.unit).foldl combine Monoid.unit
    rw [List.foldl_cons, hid (Reducer.unit first),
      foldl_combine_right_eq_foldl_combine hcr]

/-- Witness for C10 at the `Vec`-over-slices reducer (`List Nat`) on the
sequence `[[1, 2], [3]]`; the identity hypothesis is `List.nil_append`
and the equivalence hypothesis holds by `rfl`. -/
theorem fold_reduce_eq_fold_map_witness :
    fold_reduce (List Nat) [[1, 2], [3]] =
      fold_map Reducer.unit [[1, 2], [3]] :=
  fold_reduce_eq_fold_map (fun r => List.nil_append r) (fun _ _ => rfl)
    [[1, 2], [3]]

end Origami
